import Mathlib

/-!
# XanaduERPBack (erp-back): user handlers and bootstrap seeding

A shallow embedding of `models/user.go`, `handlers/users.go` and
`database.go`.  The three libraries the code calls are embedded next to it:

* `gorm` over SQLite: the `users` table is a list of rows in primary-key
  order together with the AUTOINCREMENT counter; driver failures and the
  clock come from an explicit environment `Env`;
* `golang.org/x/crypto/bcrypt`: the text format of a hash, the parsing done
  by `CompareHashAndPassword` and the way the password reaches the Blowfish
  key schedule are embedded; the key schedule itself is a parameter
  (`Blowfish`) and every theorem holds for all of its values;
* `fiber`: a handler maps the parsed body (or path parameter) to a status
  code and the Go value handed to `c.JSON`.
-/

namespace Xanadu

/-! ## models/user.go -/

/-- The `models.User` struct: the four fields of the embedded `gorm.Model`
followed by the five declared columns.  Times are nanoseconds, `0` being the
zero `time.Time`; `DeletedAt = none` is SQL `NULL`. -/
structure User where
  ID : Nat := 0
  CreatedAt : Nat := 0
  UpdatedAt : Nat := 0
  DeletedAt : Option Nat := none
  Name : String := ""
  Surname : String := ""
  FullName : String := ""
  Email : String := ""
  Password : String := ""
deriving DecidableEq, Repr

/-- The `models.CreateUserRequest` struct. -/
structure CreateUserRequest where
  Email : String
  Password : String
  FirstName : String
  LastName : String
deriving DecidableEq, Repr

/-- The `models.LoginRequest` struct. -/
structure LoginRequest where
  Email : String
  Password : String
deriving DecidableEq, Repr

/-! ## Go strings and byte slices -/

/- Results of fallible calls are compared by evaluation in the examples. -/
deriving instance DecidableEq for Except

/-- UTF-8 encoding of one code point, as bytes `0..255`. -/
def encodeRune (r : Nat) : List Nat :=
  if r < 0x80 then [r]
  else if r < 0x800 then [0xC0 + r / 64, 0x80 + r % 64]
  else if r < 0x10000 then [0xE0 + r / 4096, 0x80 + r / 64 % 64, 0x80 + r % 64]
  else [0xF0 + r / 262144, 0x80 + r / 4096 % 64, 0x80 + r / 64 % 64, 0x80 + r % 64]

/-- UTF-8 encoding of a list of characters. -/
def utf8 : List Char → List Nat
  | [] => []
  | c :: cs => encodeRune c.toNat ++ utf8 cs

/-- The conversion `[]byte(s)` of a Go string (request fields are valid
UTF-8 after JSON decoding). -/
def bytes (s : String) : List Nat := utf8 s.toList

/-- The conversion `string(hash)` applied to the output of
`bcrypt.GenerateFromPassword`, whose bytes are all ASCII. -/
def goString (bs : List Nat) : String := String.mk (bs.map Char.ofNat)

/-- Go `strconv.Atoi` on the bytes of a string: an optional sign, at least
one decimal digit, nothing else, and a value that fits a 64-bit `int`. -/
def Atoi (s : List Nat) : Option Int :=
  let neg := s.head? = some 45
  let ds := if s.head? = some 45 ∨ s.head? = some 43 then s.tail else s
  if ds = [] ∨ ¬ ds.all (fun b => decide (48 ≤ b ∧ b ≤ 57)) then none
  else
    let n : Int := Int.ofNat (ds.foldl (fun a b => 10 * a + (b - 48)) 0)
    let v : Int := if neg then -n else n
    if -9223372036854775808 ≤ v ∧ v ≤ 9223372036854775807 then some v else none

/-! ## golang.org/x/crypto/bcrypt -/

/-- The errors returned by the bcrypt package. -/
inductive BcryptErr where
  | ErrMismatchedHashAndPassword
  | ErrHashTooShort
  | ErrPasswordTooLong
  | InvalidHashPrefixError (b : Nat)
  | HashVersionTooNewError (b : Nat)
  | InvalidCostError (cost : Int)
  | costSyntax
  | randRead
  | blowfishSetup
deriving DecidableEq, Repr

def MinCost : Nat := 4
def MaxCost : Nat := 31
def DefaultCost : Nat := 10
def majorVersion : Nat := 50
def minorVersion : Nat := 97
def encodedSaltSize : Nat := 22
def encodedHashSize : Nat := 31
def minHashSize : Nat := 59

/-- The radix-64 alphabet of bcrypt's `base64Encode`. -/
def alphabet : List Char :=
  "./ABCDEFGHIJKLMNOPQRSTUVWXYZabcdefghijklmnopqrstuvwxyz0123456789".toList

/-- The character that `base64Encode` writes for one 6-bit group. -/
def enc64 (d : Fin 64) : Nat := (alphabet.getD d.val '.').toNat

/-- The result of `base64Encode(unencodedSalt)` in `newFromPassword`: the 22
radix-64 digits of the 16 bytes read from `rand.Reader`. -/
abbrev Salt := { xs : List (Fin 64) // xs.length = 22 }

/-- The Blowfish part of bcrypt (`blowfish.NewSaltedCipher`, the
`1 << cost` rounds of `blowfish.ExpandKey` and the 64 encryptions of the
magic text), as a function of the 72 key bytes it reads, the cost and the
encoded salt.  It answers the radix-64 digits of the 23 digest bytes, or an
error when the salt text does not decode. -/
abbrev Blowfish := List Nat → Nat → List Nat → Except BcryptErr (List (Fin 64))

/-- The key bytes read by `blowfish.ExpandKey` and `expandKeyWithSalt`:
18 words of 4 bytes taken from `key` with the index wrapping at
`len(key)` (`getNextWord`); no other byte of the key is read, which is why
bcrypt is said to use at most 72 bytes of a password. -/
def keyStream (key : List Nat) : List Nat :=
  (List.range 72).map (fun j => key.getD (j % key.length) 0)

/-- The function `bcrypt(password, cost, salt)`: `expensiveBlowfishSetup`
appends the trailing NUL to the password (`ckey := append(key, 0)`) and hands
it to the key schedule; the digest is returned radix-64 encoded. -/
def bcrypt (bf : Blowfish) (password : List Nat) (cost : Nat) (salt : List Nat) :
    Except BcryptErr (List Nat) :=
  match bf (keyStream (password ++ [0])) cost salt with
  | .error e => .error e
  | .ok digest => .ok (digest.map enc64)

/-- The `hashed` struct of the bcrypt package. -/
structure hashed where
  hash : List Nat
  salt : List Nat
  cost : Nat
  major : Nat
  minor : Nat
deriving DecidableEq, Repr

/-- The effect of `copy(arr[n:], src)` followed by `n += size` on the zeroed
array of `Hash`: the first `size` bytes of `src`, zero padded. -/
def fit (size : Nat) (src : List Nat) : List Nat :=
  (src ++ List.replicate size 0).take size

/-- The method `(*hashed).Hash`: `$`, major, optional minor, `$`, the cost
as `%02d`, `$`, the salt and the digest. -/
def hashed.Hash (p : hashed) : List Nat :=
  [36, p.major] ++ (if p.minor ≠ 0 then [p.minor] else []) ++
    [36, 48 + p.cost / 10 % 10, 48 + p.cost % 10, 36] ++
    fit encodedSaltSize p.salt ++ fit encodedHashSize p.hash

/-- The function `checkCost`. -/
def checkCost (cost : Int) : Except BcryptErr Unit :=
  if cost < MinCost ∨ cost > MaxCost then .error (.InvalidCostError cost) else .ok ()

/-- The method `decodeVersion`: the major version, the minor version (`0`
when absent) and the number of bytes read. -/
def decodeVersion (sbytes : List Nat) : Except BcryptErr (Nat × Nat × Nat) :=
  if sbytes.getD 0 0 ≠ 36 then .error (.InvalidHashPrefixError (sbytes.getD 0 0))
  else if sbytes.getD 1 0 > majorVersion then
    .error (.HashVersionTooNewError (sbytes.getD 1 0))
  else if sbytes.getD 2 0 ≠ 36 then .ok (sbytes.getD 1 0, sbytes.getD 2 0, 4)
  else .ok (sbytes.getD 1 0, 0, 3)

/-- The method `decodeCost`: the cost and the number of bytes read. -/
def decodeCost (sbytes : List Nat) : Except BcryptErr (Nat × Nat) :=
  match Atoi (sbytes.take 2) with
  | none => .error .costSyntax
  | some cost =>
    match checkCost cost with
    | .error e => .error e
    | .ok _ => .ok (cost.toNat, 3)

/-- The function `newFromHash`. -/
def newFromHash (hashedSecret : List Nat) : Except BcryptErr hashed :=
  if hashedSecret.length < minHashSize then .error .ErrHashTooShort
  else
    match decodeVersion hashedSecret with
    | .error e => .error e
    | .ok (major, minor, n) =>
      match decodeCost (hashedSecret.drop n) with
      | .error e => .error e
      | .ok (cost, m) =>
        .ok { hash := ((hashedSecret.drop n).drop m).drop encodedSaltSize,
              salt := ((hashedSecret.drop n).drop m).take encodedSaltSize,
              cost := cost, major := major, minor := minor }

/-- The function `newFromPassword`; `rand` is what `io.ReadFull(rand.Reader,
unencodedSalt)` and `base64Encode` produce, `none` when the read fails. -/
def newFromPassword (bf : Blowfish) (password : List Nat) (cost : Nat)
    (rand : Option Salt) : Except BcryptErr hashed :=
  let cost := if cost < MinCost then DefaultCost else cost
  match checkCost cost with
  | .error e => .error e
  | .ok _ =>
    match rand with
    | none => .error .randRead
    | some salt =>
      match bcrypt bf password cost (salt.val.map enc64) with
      | .error e => .error e
      | .ok hash =>
        .ok { hash := hash, salt := salt.val.map enc64, cost := cost,
              major := majorVersion, minor := minorVersion }

/-- The function `bcrypt.GenerateFromPassword`. -/
def GenerateFromPassword (bf : Blowfish) (password : List Nat) (cost : Nat)
    (rand : Option Salt) : Except BcryptErr (List Nat) :=
  if password.length > 72 then .error .ErrPasswordTooLong
  else
    match newFromPassword bf password cost rand with
    | .error e => .error e
    | .ok p => .ok p.Hash

/-- The function `bcrypt.CompareHashAndPassword`; `.ok ()` is Go's `nil`. -/
def CompareHashAndPassword (bf : Blowfish) (hashedPassword password : List Nat) :
    Except BcryptErr Unit :=
  match newFromHash hashedPassword with
  | .error e => .error e
  | .ok p =>
    match bcrypt bf password p.cost p.salt with
    | .error e => .error e
    | .ok otherHash =>
      let otherP : hashed :=
        { hash := otherHash, salt := p.salt, cost := p.cost, major := p.major, minor := p.minor }
      if p.Hash = otherP.Hash then .ok () else .error .ErrMismatchedHashAndPassword

/-- The hash text `GenerateFromPassword` writes at the default cost for a
salt and a digest: `$2a$10$`, the 22 salt characters, the 31 digest
characters. -/
def hashText (salt : Salt) (digest : List (Fin 64)) : List Nat :=
  [36, 50, 97, 36, 49, 48, 36] ++ salt.val.map enc64 ++ fit 31 (digest.map enc64)

/-- A stand-in key schedule for evaluating examples: the digest digits are
the first 31 key bytes modulo 64. -/
def sampleBlowfish : Blowfish := fun key _ _ =>
  .ok ((key.take 31).map (fun b => ⟨b % 64, Nat.mod_lt b (by decide)⟩))

/-- A salt for evaluating examples. -/
def sampleSalt : Salt := ⟨List.replicate 22 7, by decide⟩

/-! ## gorm over SQLite -/

/-- The errors a gorm call reports in `result.Error`: no row matched
(`gorm.ErrRecordNotFound`), or an error of the SQLite driver (locked or
unreadable database file, full disk, SQL that does not compile). -/
inductive GormErr where
  | ErrRecordNotFound
  | driver (msg : String)
deriving DecidableEq, Repr

/-- What the process reads from outside during one handler call (or one
iteration of the seeding loop): the clock gorm stamps rows with, the salt
drawn by bcrypt, and the driver failure, if any, met by the SELECT and by
the INSERT. -/
structure Env where
  now : Nat
  rand : Option Salt
  queryErr : Option GormErr
  createErr : Option GormErr

/-- The `users` table that `AutoMigrate(&models.User{})` creates from the
struct tags: `id integer PRIMARY KEY AUTOINCREMENT`, three timestamps,
`name`, `email`, `password` as `text NOT NULL`, `surname` and `fullname` as
`text DEFAULT NULL`; no UNIQUE index is declared on `email`.  `rows` are in
primary-key order and `seq` is the AUTOINCREMENT counter. -/
structure Store where
  rows : List User
  seq : Nat
deriving DecidableEq, Repr

/-- The rows a gorm query sees: the soft-delete scope of `gorm.Model` adds
`deleted_at IS NULL` to every SELECT. -/
def Store.visible (db : Store) : List User :=
  db.rows.filter (fun u => u.DeletedAt = none)

/-- The call `db.Create(&user)` for a value whose `ID` is the zero value: one
INSERT; the key is drawn from the AUTOINCREMENT counter, `CreatedAt` and
`UpdatedAt` are stamped, and the stored row is written back to `user`.  A Go
string is never SQL NULL, so the NOT NULL columns cannot reject the row; the
INSERT fails only on a driver error. -/
def Store.Create (env : Env) (db : Store) (value : User) : Except GormErr User × Store :=
  match env.createErr with
  | some e => (.error e, db)
  | none =>
    let row : User :=
      { value with ID := db.seq + 1, CreatedAt := env.now, UpdatedAt := env.now }
    (.ok row, { rows := db.rows ++ [row], seq := db.seq + 1 })

/-- The call `db.Find(&users)`. -/
def Store.Find (env : Env) (db : Store) : Except GormErr (List User) :=
  match env.queryErr with
  | some e => .error e
  | none => .ok db.visible

/-- The first visible row, in primary-key order, whose email is `email`. -/
def Store.byEmail (db : Store) (email : String) : Option User :=
  db.visible.find? (fun u => u.Email = email)

/-- The call `db.Where("email = ?", email).First(&user)`: a bound parameter,
`ORDER BY id LIMIT 1`. -/
def Store.WhereEmailFirst (env : Env) (db : Store) (email : String) : Except GormErr User :=
  match env.queryErr with
  | some e => .error e
  | none =>
    match db.byEmail email with
    | none => .error .ErrRecordNotFound
    | some u => .ok u

/-- What SQLite does with
`SELECT * FROM users WHERE <text> AND deleted_at IS NULL ORDER BY id LIMIT 1`
for a raw condition text: `answer` is the row or error returned for the
table, and `after` is the store once the driver has run the text, which may
hold further statements. -/
structure RawQuery where
  answer : String → List User → Except GormErr User
  after : String → Store → Store

/-- The call `db.First(&user, id)` with a string `id`.  gorm's
`Statement.BuildCondition` tests the string with `strconv.Atoi`: a number is
compared with the primary key, the empty string adds no condition, and any
other string is placed in the WHERE clause as raw SQL (the inline condition
of gorm's security notes, where `db.First(&user, userInputID)` with the
input `1=1;drop table users;` runs `SELECT * FROM users WHERE 1=1;...`). -/
def Store.First (sqlite : RawQuery) (env : Env) (db : Store) (cond : String) :
    Except GormErr User :=
  match env.queryErr with
  | some e => .error e
  | none =>
    match Atoi (bytes cond) with
    | some key =>
      match db.visible.find? (fun u => Int.ofNat u.ID = key) with
      | none => .error .ErrRecordNotFound
      | some u => .ok u
    | none =>
      if cond = "" then
        match db.visible.head? with
        | none => .error .ErrRecordNotFound
        | some u => .ok u
      else sqlite.answer cond db.rows

/-- The store after the call `db.First(&user, id)`: a key lookup and a
SELECT without condition leave it as it is, a raw condition text leaves what
the driver makes of it. -/
def Store.afterFirst (sqlite : RawQuery) (env : Env) (db : Store) (cond : String) : Store :=
  match env.queryErr with
  | some _ => db
  | none =>
    match Atoi (bytes cond) with
    | some _ => db
    | none => if cond = "" then db else sqlite.after cond db

/-- A raw-condition evaluator for examples: the text `1=1` holds on every
row and changes nothing; every other text is answered with a driver error
and, here, leaves the store as it is. -/
def sampleSqlite : RawQuery where
  answer := fun cond rows =>
    if cond = "1=1" then
      match (rows.filter (fun u => u.DeletedAt = none)).head? with
      | none => .error .ErrRecordNotFound
      | some u => .ok u
    else .error (.driver "SQL logic error")
  after := fun _ db => db

/-! ## fiber -/

/-- A scalar placed in a `fiber.Map`. -/
inductive Atom where
  | str (s : String)
  | bool (b : Bool)
  | uint (n : Nat)
deriving DecidableEq, Repr

/-- A value placed in a `fiber.Map`: a scalar or a nested `fiber.Map` of
scalars. -/
inductive Val where
  | atom (a : Atom)
  | map (m : List (String × Atom))
deriving DecidableEq, Repr

/-- The Go value handed to `c.JSON`. -/
inductive Body where
  | map (m : List (String × Val))
  | user (u : User)
  | users (us : List User)
deriving DecidableEq, Repr

/-- The status code and body written to the client. -/
structure Response where
  status : Nat
  body : Body
deriving DecidableEq, Repr

def StatusOK : Nat := 200
def StatusCreated : Nat := 201
def StatusBadRequest : Nat := 400
def StatusUnauthorized : Nat := 401
def StatusNotFound : Nat := 404
def StatusConflict : Nat := 409
def StatusInternalServerError : Nat := 500

/-- The user records contained in a response body. -/
def Body.userRecords : Body → List User
  | .map _ => []
  | .user u => [u]
  | .users us => us

/-- The value `fiber.Map{"error": code}`. -/
def errorMap (code : String) : Body := .map [("error", .atom (.str code))]

/-- The value `fiber.Map{"success": false, "error": "invalid_credentials"}`. -/
def invalidCredentials : Body :=
  .map [("success", .atom (.bool false)), ("error", .atom (.str "invalid_credentials"))]

/-- The result of one handler call: the response, the store afterwards, and
the plaintexts handed to `bcrypt.GenerateFromPassword`, in call order. -/
structure Outcome where
  resp : Response
  db : Store
  hashCalls : List String
deriving DecidableEq, Repr

/-! ## handlers/users.go -/

/-- The handler `HandleCreateUser`; `body` is the result of `c.BodyParser`,
`none` when it returns an error. -/
def HandleCreateUser (bf : Blowfish) (env : Env) (db : Store)
    (body : Option CreateUserRequest) : Outcome :=
  match body with
  | none => { resp := ⟨StatusBadRequest, errorMap "invalid_body"⟩, db := db, hashCalls := [] }
  | some req =>
    if req.Email = "" ∨ req.Password = "" ∨ req.FirstName = "" ∨ req.LastName = "" then
      { resp := ⟨StatusBadRequest, errorMap "missing_fields"⟩, db := db, hashCalls := [] }
    else
      let fullName := req.FirstName ++ " " ++ req.LastName
      match GenerateFromPassword bf (bytes req.Password) DefaultCost env.rand with
      | .error _ =>
        { resp := ⟨StatusInternalServerError, errorMap "hash_error"⟩, db := db,
          hashCalls := [req.Password] }
      | .ok hash =>
        let user : User :=
          { Name := req.FirstName, Surname := req.LastName, FullName := fullName,
            Email := req.Email, Password := goString hash }
        match db.Create env user with
        | (.error _, db1) =>
          { resp := ⟨StatusConflict, errorMap "email_exists"⟩, db := db1,
            hashCalls := [req.Password] }
        | (.ok user, db1) =>
          { resp := ⟨StatusCreated, .user { user with Password := "" }⟩, db := db1,
            hashCalls := [req.Password] }

/-- The handler `HandleGetUsers`. -/
def HandleGetUsers (env : Env) (db : Store) : Outcome :=
  match db.Find env with
  | .error _ =>
    { resp := ⟨StatusInternalServerError, errorMap "db_error"⟩, db := db, hashCalls := [] }
  | .ok users =>
    { resp := ⟨StatusOK, .users (users.map (fun u => { u with Password := "" }))⟩, db := db,
      hashCalls := [] }

/-- The handler `HandleGetUser`; `id` is `c.Params("id")`. -/
def HandleGetUser (sqlite : RawQuery) (env : Env) (db : Store) (id : String) : Outcome :=
  match db.First sqlite env id with
  | .error _ =>
    { resp := ⟨StatusNotFound, errorMap "not_found"⟩, db := db.afterFirst sqlite env id,
      hashCalls := [] }
  | .ok user =>
    { resp := ⟨StatusOK, .user { user with Password := "" }⟩,
      db := db.afterFirst sqlite env id, hashCalls := [] }

/-- The `fiber.Map` answered by a successful login. -/
def loginSuccess (user : User) : Body :=
  .map [("success", .atom (.bool true)),
        ("user", .map [("id", .uint user.ID), ("email", .str user.Email),
                       ("name", .str user.Name), ("surname", .str user.Surname),
                       ("fullName", .str user.FullName)])]

/-- The handler `HandleLogin`; `body` is the result of `c.BodyParser`. -/
def HandleLogin (bf : Blowfish) (env : Env) (db : Store) (body : Option LoginRequest) :
    Outcome :=
  match body with
  | none => { resp := ⟨StatusBadRequest, errorMap "invalid_body"⟩, db := db, hashCalls := [] }
  | some req =>
    if req.Email = "" ∨ req.Password = "" then
      { resp := ⟨StatusBadRequest, errorMap "missing_fields"⟩, db := db, hashCalls := [] }
    else
      match db.WhereEmailFirst env req.Email with
      | .error _ => { resp := ⟨StatusUnauthorized, invalidCredentials⟩, db := db, hashCalls := [] }
      | .ok user =>
        match CompareHashAndPassword bf (bytes user.Password) (bytes req.Password) with
        | .error _ =>
          { resp := ⟨StatusUnauthorized, invalidCredentials⟩, db := db, hashCalls := [] }
        | .ok _ => { resp := ⟨StatusOK, loginSuccess user⟩, db := db, hashCalls := [] }

/-! ## database.go -/

/-- One entry of the `users` slice literal in `seedUsers`. -/
structure SeedUser where
  FirstName : String
  LastName : String
  Email : String
  Password : String
deriving DecidableEq, Repr

/-- The `users` slice literal in `seedUsers`. -/
def seedList : List SeedUser :=
  [⟨"Vincent", "CAUSSE", "vincent.causse@xanadu.com", "Xanadu2025!"⟩,
   ⟨"Youcef", "AFANE", "youcef.afane@xanadu.com", "Xanadu2025!"⟩]

/-- The body of the `for _, u := range users` loop in `seedUsers` (the log
lines are not part of the state). -/
def seedStep (bf : Blowfish) (env : Env) (db : Store) (u : SeedUser) : Store :=
  match db.WhereEmailFirst env u.Email with
  | .ok _ => db
  | .error _ =>
    match GenerateFromPassword bf (bytes u.Password) DefaultCost env.rand with
    | .error _ => db
    | .ok hash =>
      let user : User :=
        { Name := u.FirstName, Surname := u.LastName,
          FullName := u.FirstName ++ " " ++ u.LastName,
          Email := u.Email, Password := goString hash }
      (db.Create env user).2

/-- The loop of `seedUsers` from iteration `i` on; `envs i` is the
environment met by iteration `i`. -/
def seedLoop (bf : Blowfish) (envs : Nat → Env) : Nat → List SeedUser → Store → Store
  | _, [], db => db
  | i, u :: rest, db => seedLoop bf envs (i + 1) rest (seedStep bf (envs i) db u)

/-- The function `seedUsers`. -/
def seedUsers (bf : Blowfish) (envs : Nat → Env) (db : Store) : Store :=
  seedLoop bf envs 0 seedList db

/-- The row `seedUsers` inserts for `u` when the hasher returned `hash`. -/
def seedRow (env : Env) (db : Store) (u : SeedUser) (hash : List Nat) : User :=
  { ID := db.seq + 1, CreatedAt := env.now, UpdatedAt := env.now, DeletedAt := none,
    Name := u.FirstName, Surname := u.LastName, FullName := u.FirstName ++ " " ++ u.LastName,
    Email := u.Email, Password := goString hash }

/-- An iteration of the seeding loop meets no failure: both SQL statements
are answered and the demo password is hashed. -/
def seedEnvOk (bf : Blowfish) (env : Env) : Prop :=
  env.queryErr = none ∧ env.createErr = none ∧
  (GenerateFromPassword bf (bytes "Xanadu2025!") DefaultCost env.rand).isOk = true

instance (bf : Blowfish) (env : Env) : Decidable (seedEnvOk bf env) := by
  unfold seedEnvOk
  infer_instance

/-- The rows, soft-deleted or not, that carry `email`. -/
def Store.accounts (db : Store) (email : String) : List User :=
  db.rows.filter (fun u => u.Email = email)

/-- An environment without failures, for evaluating examples. -/
def sampleEnv : Env := { now := 1000, rand := some sampleSalt, queryErr := none, createErr := none }

/-- The empty store, as created by `AutoMigrate` on a new database file. -/
def Store.empty : Store := { rows := [], seq := 0 }

/-- An environment in which every SQL statement fails with SQLITE_BUSY. -/
def lockedEnv : Env :=
  { now := 2000, rand := some sampleSalt,
    queryErr := some (.driver "database is locked"),
    createErr := some (.driver "database is locked") }

/-- An environment in which the SELECT fails with SQLITE_BUSY and the INSERT
that follows is carried out. -/
def busyReadEnv : Env :=
  { now := 4000, rand := some sampleSalt,
    queryErr := some (.driver "database is locked"), createErr := none }

/-- An environment in which reading `rand.Reader` fails. -/
def noEntropyEnv : Env := { now := 3000, rand := none, queryErr := none, createErr := none }

/-- A registration request for evaluating examples. -/
def sampleCreate : CreateUserRequest :=
  { Email := "a@x.com", Password := "pw", FirstName := "A", LastName := "B" }

/-- The row stored for `sampleCreate` by the first registration on the empty
store under `sampleBlowfish` and `sampleEnv`. -/
def sampleUser : User :=
  { ID := 1, CreatedAt := 1000, UpdatedAt := 1000, DeletedAt := none, Name := "A",
    Surname := "B", FullName := "A B", Email := "a@x.com",
    Password := "$2a$10$FFFFFFFFFFFFFFFFFFFFFFu1.u1.u1.u1.u1.u1.u1.u1.u1.u1.u" }

/-- A password of exactly 72 bytes, the longest `GenerateFromPassword`
accepts. -/
def longPassword : String := String.mk (List.replicate 72 'x')

/-- The store after that first registration. -/
def sampleStore : Store := { rows := [sampleUser], seq := 1 }

/-- The invariant of the stores the program builds: keys are positive,
strictly increasing along the table and bounded by the AUTOINCREMENT
counter, and no row is soft-deleted (no handler deletes). -/
def Store.WF (db : Store) : Prop :=
  db.rows.Pairwise (fun a b => a.ID < b.ID) ∧
  ∀ u ∈ db.rows, 0 < u.ID ∧ u.ID ≤ db.seq ∧ u.DeletedAt = none

instance (db : Store) : Decidable db.WF := by
  unfold Store.WF
  infer_instance

/-- The four empty-string tests of `HandleCreateUser`. -/
def CreateUserRequest.missing (req : CreateUserRequest) : Prop :=
  req.Email = "" ∨ req.Password = "" ∨ req.FirstName = "" ∨ req.LastName = ""

instance (req : CreateUserRequest) : Decidable req.missing := by
  unfold CreateUserRequest.missing
  infer_instance

/-- The record `HandleCreateUser` inserts for `req` when the hasher returned
`hash`. -/
def createdRow (env : Env) (db : Store) (req : CreateUserRequest) (hash : List Nat) : User :=
  { ID := db.seq + 1, CreatedAt := env.now, UpdatedAt := env.now, DeletedAt := none,
    Name := req.FirstName, Surname := req.LastName,
    FullName := req.FirstName ++ " " ++ req.LastName, Email := req.Email,
    Password := goString hash }

set_option maxRecDepth 4000

/-! ## Lemmas on the handlers -/

/-- A lookup by email finds nothing when no row carries the email. -/
theorem byEmail_eq_none_of_absent (db : Store) (email : String)
    (h : ∀ x ∈ db.rows, x.Email ≠ email) : db.byEmail email = none := by
  unfold Store.byEmail Store.visible
  rw [List.find?_eq_none]
  intro x hx
  have := h x (List.mem_filter.mp hx).1
  simpa using this

/-- `HandleCreateUser` on a request with an empty field. -/
theorem HandleCreateUser_missing (bf : Blowfish) (env : Env) (db : Store)
    (req : CreateUserRequest) (hm : req.missing) :
    HandleCreateUser bf env db (some req) =
      { resp := ⟨400, errorMap "missing_fields"⟩, db := db, hashCalls := [] } := by
  unfold CreateUserRequest.missing at hm
  unfold HandleCreateUser
  simp only [hm, if_true]
  rfl

/-- `HandleCreateUser` when the hasher fails. -/
theorem HandleCreateUser_hashError (bf : Blowfish) (env : Env) (db : Store)
    (req : CreateUserRequest) (e : BcryptErr) (hm : ¬ req.missing)
    (hg : GenerateFromPassword bf (bytes req.Password) DefaultCost env.rand = .error e) :
    HandleCreateUser bf env db (some req) =
      { resp := ⟨500, errorMap "hash_error"⟩, db := db, hashCalls := [req.Password] } := by
  unfold CreateUserRequest.missing at hm
  unfold HandleCreateUser
  simp only [hm, if_false, hg]
  rfl

/-- `HandleCreateUser` when the INSERT fails. -/
theorem HandleCreateUser_createError (bf : Blowfish) (env : Env) (db : Store)
    (req : CreateUserRequest) (hash : List Nat) (e : GormErr) (hm : ¬ req.missing)
    (hg : GenerateFromPassword bf (bytes req.Password) DefaultCost env.rand = .ok hash)
    (hc : env.createErr = some e) :
    HandleCreateUser bf env db (some req) =
      { resp := ⟨409, errorMap "email_exists"⟩, db := db, hashCalls := [req.Password] } := by
  unfold CreateUserRequest.missing at hm
  unfold HandleCreateUser Store.Create
  simp only [hm, if_false, hg, hc]
  rfl

/-- `HandleCreateUser` when hashing and the INSERT succeed. -/
theorem HandleCreateUser_created (bf : Blowfish) (env : Env) (db : Store)
    (req : CreateUserRequest) (hash : List Nat) (hm : ¬ req.missing)
    (hg : GenerateFromPassword bf (bytes req.Password) DefaultCost env.rand = .ok hash)
    (hc : env.createErr = none) :
    HandleCreateUser bf env db (some req) =
      { resp := ⟨201, .user { createdRow env db req hash with Password := "" }⟩,
        db := { rows := db.rows ++ [createdRow env db req hash], seq := db.seq + 1 },
        hashCalls := [req.Password] } := by
  unfold CreateUserRequest.missing at hm
  unfold HandleCreateUser Store.Create
  simp only [hm, if_false, hg, hc]
  rfl

/-- The four cases of `HandleCreateUser` on a parsed body. -/
theorem HandleCreateUser_cases (bf : Blowfish) (env : Env) (db : Store)
    (req : CreateUserRequest) :
    (req.missing ∧ HandleCreateUser bf env db (some req) =
      { resp := ⟨400, errorMap "missing_fields"⟩, db := db, hashCalls := [] }) ∨
    (¬ req.missing ∧ HandleCreateUser bf env db (some req) =
      { resp := ⟨500, errorMap "hash_error"⟩, db := db, hashCalls := [req.Password] }) ∨
    (¬ req.missing ∧ HandleCreateUser bf env db (some req) =
      { resp := ⟨409, errorMap "email_exists"⟩, db := db, hashCalls := [req.Password] }) ∨
    (¬ req.missing ∧ ∃ hash, HandleCreateUser bf env db (some req) =
      { resp := ⟨201, .user { createdRow env db req hash with Password := "" }⟩,
        db := { rows := db.rows ++ [createdRow env db req hash], seq := db.seq + 1 },
        hashCalls := [req.Password] }) := by
  by_cases hm : req.missing
  · exact Or.inl ⟨hm, HandleCreateUser_missing bf env db req hm⟩
  · cases hg : GenerateFromPassword bf (bytes req.Password) DefaultCost env.rand with
    | error e => exact Or.inr (Or.inl ⟨hm, HandleCreateUser_hashError bf env db req e hm hg⟩)
    | ok hash =>
      cases hc : env.createErr with
      | some e =>
        exact Or.inr (Or.inr (Or.inl
          ⟨hm, HandleCreateUser_createError bf env db req hash e hm hg hc⟩))
      | none =>
        exact Or.inr (Or.inr (Or.inr
          ⟨hm, hash, HandleCreateUser_created bf env db req hash hm hg hc⟩))

/-- A 409 answer of `HandleCreateUser` comes from a driver failure of the
INSERT, never from the rows already in the table. -/
theorem conflict_only_on_driver_error (bf : Blowfish) (env : Env) (db : Store)
    (body : Option CreateUserRequest)
    (h : (HandleCreateUser bf env db body).resp.status = 409) : env.createErr ≠ none := by
  intro hc
  cases body with
  | none => simp [HandleCreateUser, StatusBadRequest] at h
  | some req =>
    by_cases hm : req.missing
    · rw [HandleCreateUser_missing bf env db req hm] at h
      simp at h
    · cases hg : GenerateFromPassword bf (bytes req.Password) DefaultCost env.rand with
      | error e =>
        rw [HandleCreateUser_hashError bf env db req e hm hg] at h
        simp at h
      | ok hash =>
        rw [HandleCreateUser_created bf env db req hash hm hg hc] at h
        simp at h

/-! ## Lemmas on the store -/

/-- In a table whose keys strictly increase, the lookup by key returns the
row that carries the key. -/
theorem find_key_of_mem (rows : List User) (u : User)
    (hp : rows.Pairwise (fun a b => a.ID < b.ID)) (hu : u ∈ rows) :
    rows.find? (fun x => Int.ofNat x.ID = Int.ofNat u.ID) = some u := by
  induction rows with
  | nil => cases hu
  | cons a t ih =>
    rw [List.pairwise_cons] at hp
    rcases List.mem_cons.mp hu with h | h
    · subst h
      simp
    · have hlt := hp.1 u h
      have hne : ¬ (Int.ofNat a.ID = Int.ofNat u.ID) := by
        intro hc
        have : a.ID = u.ID := Int.ofNat.inj hc
        omega
      rw [List.find?_cons_of_neg _ (by simpa using hne)]
      exact ih hp.2 h

/-- In a well-formed store every row is visible. -/
theorem visible_eq_rows (db : Store) (hwf : db.WF) : db.visible = db.rows := by
  unfold Store.visible
  rw [List.filter_eq_self]
  intro u hu
  simpa using (hwf.2 u hu).2.2

/-- The empty store is well formed. -/
theorem WF_empty : Store.empty.WF := by
  constructor
  · exact List.Pairwise.nil
  · intro u hu
    cases hu

/-- The insert done by `Create` keeps the store well formed. -/
theorem WF_create (env : Env) (db : Store) (value : User) (hwf : db.WF)
    (hv : value.DeletedAt = none) : (db.Create env value).2.WF := by
  unfold Store.Create
  cases env.createErr with
  | some e => exact hwf
  | none =>
    constructor
    · show List.Pairwise _ (db.rows ++ [_])
      rw [List.pairwise_append]
      refine ⟨hwf.1, List.pairwise_singleton _ _, ?_⟩
      intro a ha b hb
      rw [List.mem_singleton] at hb
      subst hb
      have := (hwf.2 a ha).2.1
      show a.ID < db.seq + 1
      omega
    · intro u hu
      have hu : u ∈ db.rows ++ [_] := hu
      rcases List.mem_append.mp hu with h | h
      · have := hwf.2 u h
        exact ⟨this.1, Nat.le_succ_of_le this.2.1, this.2.2⟩
      · rw [List.mem_singleton] at h
        subst h
        exact ⟨Nat.succ_pos _, Nat.le_refl _, hv⟩

/-- The store after `HandleGetUser` is the store after its lookup; it is the
store before whenever the path parameter is a number for `strconv.Atoi`. -/
theorem HandleGetUser_db (sqlite : RawQuery) (env : Env) (db : Store) (id : String) :
    (HandleGetUser sqlite env db id).db = db.afterFirst sqlite env id ∧
    (∀ key, Atoi (bytes id) = some key → (HandleGetUser sqlite env db id).db = db) := by
  have h : (HandleGetUser sqlite env db id).db = db.afterFirst sqlite env id := by
    unfold HandleGetUser
    split <;> rfl
  refine ⟨h, fun key hk => ?_⟩
  rw [h]
  unfold Store.afterFirst
  cases env.queryErr with
  | some e => rfl
  | none => simp only [hk]

/-- `HandleCreateUser`, `HandleGetUsers` and `HandleLogin` keep the store
well formed, and so does `HandleGetUser` for a path parameter that is a
number for `strconv.Atoi`. -/
theorem WF_handlers (bf : Blowfish) (sqlite : RawQuery) (env : Env) (db : Store)
    (hwf : db.WF) (creq : Option CreateUserRequest) (lreq : Option LoginRequest)
    (id : String) :
    (HandleCreateUser bf env db creq).db.WF ∧ (HandleGetUsers env db).db.WF ∧
    (∀ key, Atoi (bytes id) = some key → (HandleGetUser sqlite env db id).db.WF) ∧
    (HandleLogin bf env db lreq).db.WF := by
  refine ⟨?_, ?_, ?_, ?_⟩
  · cases creq with
    | none => exact hwf
    | some req =>
      rcases HandleCreateUser_cases bf env db req with h | h | h | h
      · rw [h.2]; exact hwf
      · rw [h.2]; exact hwf
      · rw [h.2]; exact hwf
      · obtain ⟨_, hash, h⟩ := h
        rw [h]
        have := WF_create { env with createErr := none } db
          { Name := req.FirstName, Surname := req.LastName,
            FullName := req.FirstName ++ " " ++ req.LastName, Email := req.Email,
            Password := goString hash } hwf rfl
        exact this
  · unfold HandleGetUsers; split <;> exact hwf
  · intro key hk
    rw [(HandleGetUser_db sqlite env db id).2 key hk]
    exact hwf
  · unfold HandleLogin
    split
    · exact hwf
    · split
      · exact hwf
      · split
        · exact hwf
        · split <;> exact hwf

/-- On a well-formed store, with the SELECT answered, `HandleGetUser` for a
path parameter that `strconv.Atoi` reads as `key` answers 404 `not_found`
when no row carries the key and 200 with the row, its password emptied, when
one does; the store is unchanged. -/
theorem get_user_by_key (sqlite : RawQuery) (env : Env) (db : Store) (id : String)
    (key : Int) (hwf : db.WF) (hq : env.queryErr = none) (hid : Atoi (bytes id) = some key) :
    ((∀ u ∈ db.rows, Int.ofNat u.ID ≠ key) →
      HandleGetUser sqlite env db id =
        { resp := ⟨404, .map [("error", .atom (.str "not_found"))]⟩, db := db,
          hashCalls := [] }) ∧
    (∀ u ∈ db.rows, Int.ofNat u.ID = key →
      HandleGetUser sqlite env db id =
        { resp := ⟨200, .user { u with Password := "" }⟩, db := db, hashCalls := [] }) := by
  constructor
  · intro hno
    have hf : db.visible.find? (fun u => Int.ofNat u.ID = key) = none := by
      rw [visible_eq_rows db hwf, List.find?_eq_none]
      intro x hx
      simpa using hno x hx
    unfold HandleGetUser Store.First Store.afterFirst
    simp only [hq, hid, hf]
    rfl
  · intro u hu hk
    have hf : db.visible.find? (fun u => Int.ofNat u.ID = key) = some u := by
      rw [visible_eq_rows db hwf, ← hk]
      exact find_key_of_mem db.rows u hwf.1 hu
    unfold HandleGetUser Store.First Store.afterFirst
    simp only [hq, hid, hf]
    rfl

/-- A path parameter that is neither a number for `strconv.Atoi` nor empty
reaches SQLite as raw condition text: the answer of `HandleGetUser` is the
answer of SQLite to that text, and the store afterwards is what the driver
made of it. -/
theorem get_user_raw (sqlite : RawQuery) (env : Env) (db : Store) (id : String)
    (hq : env.queryErr = none) (hid : Atoi (bytes id) = none) (hne : id ≠ "") :
    (∀ e, sqlite.answer id db.rows = .error e →
      (HandleGetUser sqlite env db id).resp = ⟨404, .map [("error", .atom (.str "not_found"))]⟩) ∧
    (∀ u, sqlite.answer id db.rows = .ok u →
      (HandleGetUser sqlite env db id).resp = ⟨200, .user { u with Password := "" }⟩) ∧
    (HandleGetUser sqlite env db id).db = sqlite.after id db := by
  refine ⟨?_, ?_, ?_⟩
  · intro e he
    unfold HandleGetUser Store.First
    simp only [hq, hid, hne, if_false, he]
    rfl
  · intro u hu
    unfold HandleGetUser Store.First
    simp only [hq, hid, hne, if_false, hu]
    rfl
  · rw [(HandleGetUser_db sqlite env db id).1]
    unfold Store.afterFirst
    simp only [hq, hid, hne, if_false]

/-! ## Lemmas on the seeding loop -/

/-- A result that is not an error carries a value. -/
theorem exists_of_isOk {ε α : Type} (x : Except ε α) (h : x.isOk = true) : ∃ a, x = .ok a := by
  cases x with
  | error e => cases h
  | ok a => exact ⟨a, rfl⟩

/-- An iteration whose lookup finds the account changes nothing. -/
theorem seedStep_found (bf : Blowfish) (env : Env) (db : Store) (u : SeedUser) (x : User)
    (hq : env.queryErr = none) (hx : db.byEmail u.Email = some x) :
    seedStep bf env db u = db := by
  unfold seedStep Store.WhereEmailFirst
  simp only [hq, hx]

/-- An iteration without failure whose lookup finds nothing appends the
account. -/
theorem seedStep_created (bf : Blowfish) (env : Env) (db : Store) (u : SeedUser)
    (hash : List Nat) (hq : env.queryErr = none) (hc : env.createErr = none)
    (hg : GenerateFromPassword bf (bytes u.Password) DefaultCost env.rand = .ok hash)
    (hx : db.byEmail u.Email = none) :
    seedStep bf env db u =
      { rows := db.rows ++ [seedRow env db u hash], seq := db.seq + 1 } := by
  unfold seedStep Store.WhereEmailFirst Store.Create
  simp only [hq, hx, hg, hc]
  rfl

/-- Whatever the environment, an iteration either leaves the store as it is
or appends one row carrying the email of its entry. -/
theorem seedStep_cases (bf : Blowfish) (env : Env) (db : Store) (u : SeedUser) :
    seedStep bf env db u = db ∨
    ((env.queryErr ≠ none ∨ db.byEmail u.Email = none) ∧ ∃ hash,
      seedStep bf env db u =
        { rows := db.rows ++ [seedRow env db u hash], seq := db.seq + 1 }) := by
  unfold seedStep Store.WhereEmailFirst Store.Create
  cases hq : env.queryErr with
  | some e =>
    simp only
    cases hg : GenerateFromPassword bf (bytes u.Password) DefaultCost env.rand with
    | error e => exact Or.inl rfl
    | ok hash =>
      cases hc : env.createErr with
      | some e => exact Or.inl rfl
      | none => exact Or.inr ⟨Or.inl (by simp), hash, rfl⟩
  | none =>
    cases hx : db.byEmail u.Email with
    | some x => exact Or.inl rfl
    | none =>
      simp only
      cases hg : GenerateFromPassword bf (bytes u.Password) DefaultCost env.rand with
      | error e => exact Or.inl rfl
      | ok hash =>
        cases hc : env.createErr with
        | some e => exact Or.inl rfl
        | none => exact Or.inr ⟨Or.inr (by simp), hash, rfl⟩

/-- A lookup that finds a row still finds it after rows are appended. -/
theorem byEmail_append_of_some (db : Store) (l : List User) (s : Nat) (email : String)
    (x : User) (hx : db.byEmail email = some x) :
    Store.byEmail { rows := db.rows ++ l, seq := s } email = some x := by
  unfold Store.byEmail Store.visible at hx ⊢
  simp only [List.filter_append, List.find?_append, hx]
  rfl

/-- A lookup that finds nothing, after one visible row is appended, finds
that row exactly when it carries the email. -/
theorem byEmail_append_of_none (db : Store) (row : User) (s : Nat) (email : String)
    (hd : row.DeletedAt = none) (hx : db.byEmail email = none) :
    Store.byEmail { rows := db.rows ++ [row], seq := s } email =
      if row.Email = email then some row else none := by
  unfold Store.byEmail Store.visible at hx ⊢
  simp only [List.filter_append, List.find?_append, hx, Option.none_or]
  simp [hd]

/-- An iteration never loses an account that a lookup finds. -/
theorem seedStep_keeps_found (bf : Blowfish) (env : Env) (db : Store) (u : SeedUser)
    (email : String) (x : User) (hx : db.byEmail email = some x) :
    (seedStep bf env db u).byEmail email = some x := by
  rcases seedStep_cases bf env db u with h | ⟨_, hash, h⟩
  · rw [h]; exact hx
  · rw [h]; exact byEmail_append_of_some db _ _ email x hx

/-- After an iteration without failure the account of its entry is found. -/
theorem seedStep_ok_found (bf : Blowfish) (env : Env) (db : Store) (u : SeedUser)
    (hash : List Nat) (hq : env.queryErr = none) (hc : env.createErr = none)
    (hg : GenerateFromPassword bf (bytes u.Password) DefaultCost env.rand = .ok hash) :
    ∃ x, (seedStep bf env db u).byEmail u.Email = some x := by
  cases hx : db.byEmail u.Email with
  | some x => exact ⟨x, by rw [seedStep_found bf env db u x hq hx]; exact hx⟩
  | none =>
    rw [seedStep_created bf env db u hash hq hc hg hx,
      byEmail_append_of_none db _ _ u.Email rfl hx]
    exact ⟨_, if_pos rfl⟩

/-- The two iterations of `seedUsers`. -/
theorem seedUsers_eq (bf : Blowfish) (envs : Nat → Env) (db : Store) :
    seedUsers bf envs db =
      seedStep bf (envs 1)
        (seedStep bf (envs 0) db
          ⟨"Vincent", "CAUSSE", "vincent.causse@xanadu.com", "Xanadu2025!"⟩)
        ⟨"Youcef", "AFANE", "youcef.afane@xanadu.com", "Xanadu2025!"⟩ := rfl

/-- An iteration only appends: the rows present before are the first rows
afterwards, and an appended row carries the email of the entry. -/
theorem seedStep_rows (bf : Blowfish) (env : Env) (db : Store) (u : SeedUser) :
    ∃ added, (seedStep bf env db u).rows = db.rows ++ added ∧
      ∀ x ∈ added, x.Email = u.Email := by
  rcases seedStep_cases bf env db u with h | ⟨_, hash, h⟩
  · exact ⟨[], by rw [h, List.append_nil], fun x hx => by cases hx⟩
  · refine ⟨[seedRow env db u hash], by rw [h], fun x hx => ?_⟩
    rw [List.mem_singleton] at hx
    rw [hx]
    rfl

/-- Seeding keeps the store well formed. -/
theorem WF_seedUsers (bf : Blowfish) (envs : Nat → Env) (db : Store) (hwf : db.WF) :
    (seedUsers bf envs db).WF := by
  have step : ∀ (env : Env) (d : Store) (u : SeedUser), d.WF → (seedStep bf env d u).WF := by
    intro env d u hd
    rcases seedStep_cases bf env d u with h | ⟨_, hash, h⟩
    · rw [h]; exact hd
    · rw [h]
      exact WF_create { env with createErr := none } d
        { Name := u.FirstName, Surname := u.LastName,
          FullName := u.FirstName ++ " " ++ u.LastName, Email := u.Email,
          Password := goString hash } hd rfl
  rw [seedUsers_eq]
  exact step _ _ _ (step _ _ _ hwf)

/-! ## Lemmas on the bcrypt embedding -/

/-- An ASCII byte survives the conversion to a character. -/
theorem toNat_ofNat_ascii (b : Nat) (hb : b < 128) : (Char.ofNat b).toNat = b := by
  have hv : b.isValidChar := Or.inl (by omega)
  simp [Char.ofNat, hv, Char.ofNatAux, Char.toNat, UInt32.toNat]

/-- On ASCII bytes `[]byte(string(bs))` is `bs`. -/
theorem bytes_goString (bs : List Nat) (h : ∀ b ∈ bs, b < 128) : bytes (goString bs) = bs := by
  unfold bytes goString
  show utf8 (bs.map Char.ofNat) = bs
  induction bs with
  | nil => rfl
  | cons b t ih =>
    have hb : b < 128 := h b (List.mem_cons_self _ _)
    have ht := ih (fun x hx => h x (List.mem_cons_of_mem _ hx))
    simp only [List.map_cons, utf8, ht, toNat_ofNat_ascii b hb, encodeRune, hb, if_true]
    rfl

/-- Every radix-64 character is ASCII. -/
theorem enc64_lt (d : Fin 64) : enc64 d < 128 := by
  revert d
  decide

/-- The length of a fitted field. -/
theorem length_fit (n : Nat) (l : List Nat) : (fit n l).length = n := by
  simp [fit]

/-- A field of the right length is copied whole. -/
theorem fit_of_length (n : Nat) (l : List Nat) (h : l.length = n) : fit n l = l := by
  unfold fit
  rw [List.take_left' h]

/-- The bytes of a fitted field are bytes of the source or zero. -/
theorem fit_lt (n : Nat) (l : List Nat) (h : ∀ b ∈ l, b < 128) : ∀ b ∈ fit n l, b < 128 := by
  intro b hb
  unfold fit at hb
  have := List.mem_of_mem_take hb
  rcases List.mem_append.mp this with h1 | h1
  · exact h b h1
  · rw [List.mem_replicate] at h1
    omega

/-- `GenerateFromPassword` at the default cost returns the hash text of the
Blowfish digest of the password's key stream. -/
theorem generate_ok (bf : Blowfish) (p : List Nat) (salt : Salt) (h : List Nat)
    (hg : GenerateFromPassword bf p DefaultCost (some salt) = .ok h) :
    ∃ digest, bf (keyStream (p ++ [0])) 10 (salt.val.map enc64) = .ok digest ∧
      h = hashText salt digest := by
  unfold GenerateFromPassword newFromPassword bcrypt at hg
  split at hg
  · cases hg
  · simp only [DefaultCost, MinCost, checkCost, MaxCost] at hg
    cases hb : bf (keyStream (p ++ [0])) 10 (salt.val.map enc64) with
    | error e => simp [hb] at hg
    | ok digest =>
      refine ⟨digest, rfl, ?_⟩
      simp [hb] at hg
      rw [← hg]
      simp [hashed.Hash, hashText, majorVersion, minorVersion, encodedSaltSize,
        encodedHashSize, fit_of_length 22 (salt.val.map enc64) (by simp [salt.property])]

/-- The bytes of a generated hash text are ASCII. -/
theorem hashText_lt (salt : Salt) (digest : List (Fin 64)) :
    ∀ b ∈ hashText salt digest, b < 128 := by
  intro b hb
  unfold hashText at hb
  rcases List.mem_append.mp hb with h1 | h1
  · rcases List.mem_append.mp h1 with h2 | h2
    · simp only [List.mem_cons, List.mem_singleton, List.not_mem_nil, or_false] at h2
      omega
    · obtain ⟨d, _, rfl⟩ := List.mem_map.mp h2
      exact enc64_lt d
  · refine fit_lt 31 _ ?_ b h1
    intro x hx
    obtain ⟨d, _, rfl⟩ := List.mem_map.mp hx
    exact enc64_lt d

/-- Parsing a hash text that starts with `$2a$10$`. -/
theorem newFromHash_cons (t : List Nat) (ht : 52 ≤ t.length) :
    newFromHash (36 :: 50 :: 97 :: 36 :: 49 :: 48 :: 36 :: t) =
      .ok { hash := t.drop 22, salt := t.take 22, cost := 10, major := 50, minor := 97 } := by
  have hl : ¬ (36 :: 50 :: 97 :: 36 :: 49 :: 48 :: 36 :: t).length < minHashSize := by
    simp only [List.length_cons, minHashSize]; omega
  have dv : decodeVersion (36 :: 50 :: 97 :: 36 :: 49 :: 48 :: 36 :: t) = .ok (50, 97, 4) := rfl
  have dc : decodeCost (49 :: 48 :: 36 :: t) = .ok (10, 3) := rfl
  have d4 : (36 :: 50 :: 97 :: 36 :: 49 :: 48 :: 36 :: t).drop 4 = 49 :: 48 :: 36 :: t := rfl
  unfold newFromHash
  rw [if_neg hl, dv]
  simp only
  rw [d4, dc]
  rfl

/-- Parsing a generated hash text recovers the salt, the cost and the
digest. -/
theorem newFromHash_hashText (salt : Salt) (digest : List (Fin 64)) :
    newFromHash (hashText salt digest) =
      .ok { hash := fit 31 (digest.map enc64), salt := salt.val.map enc64, cost := 10,
            major := 50, minor := 97 } := by
  have hs : (salt.val.map enc64).length = 22 := by simp [salt.property]
  have e : hashText salt digest = 36 :: 50 :: 97 :: 36 :: 49 :: 48 :: 36 ::
      (salt.val.map enc64 ++ fit 31 (digest.map enc64)) := by
    simp [hashText]
  rw [e, newFromHash_cons _ (by rw [List.length_append, hs, length_fit]; omega),
    List.take_left' hs, List.drop_left' hs]

/-- Two `hashed` values that differ only in the digest have the same text
exactly when the 31 digest characters agree. -/
theorem Hash_eq_iff (h1 h2 salt : List Nat) (cost major minor : Nat) :
    hashed.Hash { hash := h1, salt := salt, cost := cost, major := major, minor := minor } =
      hashed.Hash { hash := h2, salt := salt, cost := cost, major := major, minor := minor }
    ↔ fit encodedHashSize h1 = fit encodedHashSize h2 := by
  unfold hashed.Hash
  exact List.append_right_inj _

/-- The comparison of a password with a hash generated at the default cost
succeeds exactly when the Blowfish digest of the password's key stream,
under the salt of the hash, has the same 31 characters as the stored
digest. -/
theorem compare_hashText (bf : Blowfish) (salt : Salt) (digest : List (Fin 64))
    (wrong : List Nat) :
    CompareHashAndPassword bf (bytes (goString (hashText salt digest))) wrong = .ok () ↔
      ∃ other, bf (keyStream (wrong ++ [0])) 10 (salt.val.map enc64) = .ok other ∧
        fit 31 (other.map enc64) = fit 31 (digest.map enc64) := by
  rw [bytes_goString _ (hashText_lt salt digest)]
  unfold CompareHashAndPassword bcrypt
  rw [newFromHash_hashText]
  simp only
  cases hb : bf (keyStream (wrong ++ [0])) 10 (salt.val.map enc64) with
  | error e => simp
  | ok other =>
    simp only [Hash_eq_iff, encodedHashSize]
    have idem : fit 31 (fit 31 (digest.map enc64)) = fit 31 (digest.map enc64) :=
      fit_of_length 31 _ (length_fit 31 _)
    rw [idem]
    constructor
    · intro h
      split at h
      · rename_i heq
        exact ⟨other, rfl, heq.symm⟩
      · cases h
    · rintro ⟨o, ho, hf⟩
      cases ho
      rw [if_pos hf.symm]

/-- Equal key streams give equal comparisons: the comparison succeeds for
every password whose key stream is that of the hashed password. -/
theorem compare_of_keyStream_eq (bf : Blowfish) (p wrong : List Nat) (salt : Salt)
    (h : List Nat) (hg : GenerateFromPassword bf p DefaultCost (some salt) = .ok h)
    (hk : keyStream (wrong ++ [0]) = keyStream (p ++ [0])) :
    CompareHashAndPassword bf (bytes (goString h)) wrong = .ok () := by
  obtain ⟨dp, hb, rfl⟩ := generate_ok bf p salt h hg
  rw [compare_hashText]
  exact ⟨dp, by rw [hk]; exact hb, rfl⟩

/-- A hash returned by `GenerateFromPassword` at the default cost is a text
of 60 ASCII bytes: as a string it is equal to no password whose byte length
is not 60. -/
theorem generated_ne_plaintext (bf : Blowfish) (p : String) (rand : Option Salt)
    (h : List Nat) (hg : GenerateFromPassword bf (bytes p) DefaultCost rand = .ok h)
    (hl : (bytes p).length ≠ 60) : goString h ≠ p := by
  cases rand with
  | none =>
    unfold GenerateFromPassword newFromPassword at hg
    split at hg
    · cases hg
    · simp [DefaultCost, MinCost, checkCost, MaxCost] at hg
  | some salt =>
    obtain ⟨dp, _, rfl⟩ := generate_ok bf (bytes p) salt h hg
    intro heq
    apply hl
    rw [← heq, bytes_goString _ (hashText_lt salt dp)]
    simp [hashText, length_fit, salt.property]

/-! ## The claims -/

/-- C1: a login for an email that no row carries and a login for an email
whose first row does not verify the password are answered with the same
status 401 and the same body, whatever the two stores, requests and
environments are. -/
theorem login_failures_identical (bf : Blowfish) (env1 env2 : Env) (db1 db2 : Store)
    (req1 req2 : LoginRequest) (u : User) (e : BcryptErr)
    (h1 : req1.Email ≠ "" ∧ req1.Password ≠ "")
    (h2 : req2.Email ≠ "" ∧ req2.Password ≠ "")
    (hno : ∀ x ∈ db1.rows, x.Email ≠ req1.Email)
    (hyes : db2.byEmail req2.Email = some u)
    (hbad : CompareHashAndPassword bf (bytes u.Password) (bytes req2.Password) = .error e) :
    (HandleLogin bf env1 db1 (some req1)).resp =
        ⟨401, .map [("success", .atom (.bool false)),
                    ("error", .atom (.str "invalid_credentials"))]⟩ ∧
    (HandleLogin bf env2 db2 (some req2)).resp =
        ⟨401, .map [("success", .atom (.bool false)),
                    ("error", .atom (.str "invalid_credentials"))]⟩ ∧
    (HandleLogin bf env1 db1 (some req1)).resp = (HandleLogin bf env2 db2 (some req2)).resp := by
  have hnone := byEmail_eq_none_of_absent db1 req1.Email hno
  have a1 : (HandleLogin bf env1 db1 (some req1)).resp =
      ⟨401, .map [("success", .atom (.bool false)),
                  ("error", .atom (.str "invalid_credentials"))]⟩ := by
    unfold HandleLogin Store.WhereEmailFirst
    simp only [h1.1, h1.2, or_self, if_false, hnone]
    cases env1.queryErr <;> rfl
  have a2 : (HandleLogin bf env2 db2 (some req2)).resp =
      ⟨401, .map [("success", .atom (.bool false)),
                  ("error", .atom (.str "invalid_credentials"))]⟩ := by
    unfold HandleLogin Store.WhereEmailFirst
    simp only [h2.1, h2.2, or_self, if_false, hyes]
    cases env2.queryErr
    · simp only [hbad]; rfl
    · rfl
  exact ⟨a1, a2, a1.trans a2.symm⟩

/-- Witness of C1 on `sampleStore`: an unknown email and a wrong password for
a known email. -/
theorem login_failures_identical_witness :
    (("nobody@x.com" ≠ "" ∧ "pw" ≠ "") ∧ ("a@x.com" ≠ "" ∧ "pW" ≠ "") ∧
      (∀ x ∈ sampleStore.rows, x.Email ≠ "nobody@x.com") ∧
      sampleStore.byEmail "a@x.com" = some sampleUser ∧
      CompareHashAndPassword sampleBlowfish (bytes sampleUser.Password) (bytes "pW") =
        .error .ErrMismatchedHashAndPassword) ∧
    (HandleLogin sampleBlowfish sampleEnv sampleStore (some ⟨"nobody@x.com", "pw"⟩)).resp =
      (HandleLogin sampleBlowfish sampleEnv sampleStore (some ⟨"a@x.com", "pW"⟩)).resp :=
  ⟨⟨by decide, by decide, by decide, by decide, by decide⟩,
   (login_failures_identical sampleBlowfish sampleEnv sampleEnv sampleStore sampleStore
      ⟨"nobody@x.com", "pw"⟩ ⟨"a@x.com", "pW"⟩ sampleUser .ErrMismatchedHashAndPassword
      (by decide) (by decide) (by decide) (by decide) (by decide)).2.2⟩

/-- C2 (failing input): the same registration sent twice to the empty store
is answered 201 both times and leaves two rows with the same email; the
`users` table has no UNIQUE index on `email`, so the second INSERT is not
rejected. -/
theorem duplicate_email_registered_twice :
    (HandleCreateUser sampleBlowfish sampleEnv Store.empty (some sampleCreate)).resp.status = 201 ∧
    (HandleCreateUser sampleBlowfish sampleEnv Store.empty (some sampleCreate)).db = sampleStore ∧
    (HandleCreateUser sampleBlowfish sampleEnv sampleStore (some sampleCreate)).resp.status = 201 ∧
    (HandleCreateUser sampleBlowfish sampleEnv sampleStore (some sampleCreate)).db.rows =
      [sampleUser, { sampleUser with ID := 2 }] := by
  decide

/-- C3: every user record in a response of `HandleCreateUser`,
`HandleGetUsers` or `HandleGetUser` has an empty `Password`, for every
store, environment and request. -/
theorem responses_have_empty_password (bf : Blowfish) (sqlite : RawQuery) (env : Env)
    (db : Store) (body : Option CreateUserRequest) (id : String) :
    (∀ u ∈ (HandleCreateUser bf env db body).resp.body.userRecords, u.Password = "") ∧
    (∀ u ∈ (HandleGetUsers env db).resp.body.userRecords, u.Password = "") ∧
    (∀ u ∈ (HandleGetUser sqlite env db id).resp.body.userRecords, u.Password = "") := by
  refine ⟨?_, ?_, ?_⟩
  · intro u hu
    cases body with
    | none => simp [HandleCreateUser, errorMap, Body.userRecords] at hu
    | some req =>
      rcases HandleCreateUser_cases bf env db req with h | h | h | h
      · rw [h.2] at hu; simp [errorMap, Body.userRecords] at hu
      · rw [h.2] at hu; simp [errorMap, Body.userRecords] at hu
      · rw [h.2] at hu; simp [errorMap, Body.userRecords] at hu
      · obtain ⟨_, hash, h⟩ := h
        rw [h] at hu
        simp only [Body.userRecords, List.mem_singleton] at hu
        rw [hu]
  · intro u hu
    unfold HandleGetUsers at hu
    split at hu
    · simp [errorMap, Body.userRecords] at hu
    · simp only [Body.userRecords, List.mem_map] at hu
      obtain ⟨x, _, rfl⟩ := hu
      rfl
  · intro u hu
    unfold HandleGetUser at hu
    split at hu
    · simp [errorMap, Body.userRecords] at hu
    · simp only [Body.userRecords, List.mem_singleton] at hu
      rw [hu]

/-- Witness of C3: the bodies answered on `sampleStore` do contain user
records, stored with a hash and returned without it. -/
theorem responses_have_empty_password_witness :
    sampleUser.Password ≠ "" ∧
    (HandleGetUsers sampleEnv sampleStore).resp.body.userRecords =
      [{ sampleUser with Password := "" }] ∧
    (HandleGetUser sampleSqlite sampleEnv sampleStore "1").resp.body.userRecords =
      [{ sampleUser with Password := "" }] ∧
    (∀ u ∈ (HandleCreateUser sampleBlowfish sampleEnv sampleStore
        (some sampleCreate)).resp.body.userRecords, u.Password = "") :=
  ⟨by decide, by decide, by decide,
   (responses_have_empty_password sampleBlowfish sampleSqlite sampleEnv sampleStore
      (some sampleCreate) "1").1⟩

/-- C4: for a body that parses, `HandleCreateUser` answers 400
`missing_fields` exactly when one of the four fields is the empty string, it
answers 400 in no other case, and when it does nothing is hashed and the
store is unchanged. -/
theorem create_missing_fields_iff (bf : Blowfish) (env : Env) (db : Store)
    (req : CreateUserRequest) :
    ((HandleCreateUser bf env db (some req)).resp =
        ⟨400, .map [("error", .atom (.str "missing_fields"))]⟩
      ↔ (req.Email = "" ∨ req.Password = "" ∨ req.FirstName = "" ∨ req.LastName = "")) ∧
    ((HandleCreateUser bf env db (some req)).resp.status = 400
      ↔ (req.Email = "" ∨ req.Password = "" ∨ req.FirstName = "" ∨ req.LastName = "")) ∧
    ((req.Email = "" ∨ req.Password = "" ∨ req.FirstName = "" ∨ req.LastName = "") →
      (HandleCreateUser bf env db (some req)).db = db ∧
      (HandleCreateUser bf env db (some req)).hashCalls = []) := by
  change (_ ↔ req.missing) ∧ (_ ↔ req.missing) ∧ (req.missing → _)
  rcases HandleCreateUser_cases bf env db req with h | h | h | h
  · rw [h.2]
    exact ⟨⟨fun _ => h.1, fun _ => rfl⟩, ⟨fun _ => h.1, fun _ => rfl⟩, fun _ => ⟨rfl, rfl⟩⟩
  · rw [h.2]
    refine ⟨⟨fun c => ?_, fun c => absurd c h.1⟩, ⟨fun c => ?_, fun c => absurd c h.1⟩,
      fun c => absurd c h.1⟩
    · exact absurd (congrArg Response.status c) (by simp)
    · exact absurd c (by simp)
  · rw [h.2]
    refine ⟨⟨fun c => ?_, fun c => absurd c h.1⟩, ⟨fun c => ?_, fun c => absurd c h.1⟩,
      fun c => absurd c h.1⟩
    · exact absurd (congrArg Response.status c) (by simp)
    · exact absurd c (by simp)
  · obtain ⟨hm, hash, h⟩ := h
    rw [h]
    refine ⟨⟨fun c => ?_, fun c => absurd c hm⟩, ⟨fun c => ?_, fun c => absurd c hm⟩,
      fun c => absurd c hm⟩
    · exact absurd (congrArg Response.status c) (by simp)
    · exact absurd c (by simp)

/-- Witness of C4: a registration with an empty last name on `sampleStore`
is answered 400, hashes nothing and leaves the store as it was; the sample
registration is not answered 400. -/
theorem create_missing_fields_iff_witness :
    (HandleCreateUser sampleBlowfish sampleEnv sampleStore
      (some ⟨"b@x.com", "pw", "B", ""⟩)).resp.status = 400 ∧
    ((HandleCreateUser sampleBlowfish sampleEnv sampleStore
        (some ⟨"b@x.com", "pw", "B", ""⟩)).db = sampleStore ∧
      (HandleCreateUser sampleBlowfish sampleEnv sampleStore
        (some ⟨"b@x.com", "pw", "B", ""⟩)).hashCalls = []) ∧
    (HandleCreateUser sampleBlowfish sampleEnv sampleStore (some sampleCreate)).resp.status
      ≠ 400 :=
  have h := create_missing_fields_iff sampleBlowfish sampleEnv sampleStore
    ⟨"b@x.com", "pw", "B", ""⟩
  have k := create_missing_fields_iff sampleBlowfish sampleEnv sampleStore sampleCreate
  ⟨h.2.1.mpr (by decide), h.2.2 (by decide), fun c => absurd (k.2.1.mp c) (by decide)⟩

/-- C5: when the four fields are non-empty, the hasher returns `hash` and
the INSERT succeeds, `HandleCreateUser` appends exactly one record, with the
names, the full name, the email, the hasher's output as password and the key
assigned by the store, and answers 201 with that record, its password
emptied; the stored password is the 60-byte hash text, so it is not the
plaintext (a plaintext of another length cannot equal it). -/
theorem create_inserts_and_echoes (bf : Blowfish) (env : Env) (db : Store)
    (req : CreateUserRequest) (hash : List Nat)
    (hne : req.Email ≠ "" ∧ req.Password ≠ "" ∧ req.FirstName ≠ "" ∧ req.LastName ≠ "")
    (hg : GenerateFromPassword bf (bytes req.Password) DefaultCost env.rand = .ok hash)
    (hc : env.createErr = none) :
    (HandleCreateUser bf env db (some req)).db.rows = db.rows ++
      [{ ID := db.seq + 1, CreatedAt := env.now, UpdatedAt := env.now, DeletedAt := none,
         Name := req.FirstName, Surname := req.LastName,
         FullName := req.FirstName ++ " " ++ req.LastName, Email := req.Email,
         Password := goString hash }] ∧
    (HandleCreateUser bf env db (some req)).resp = ⟨201, .user
      { ID := db.seq + 1, CreatedAt := env.now, UpdatedAt := env.now, DeletedAt := none,
        Name := req.FirstName, Surname := req.LastName,
        FullName := req.FirstName ++ " " ++ req.LastName, Email := req.Email,
        Password := "" }⟩ ∧
    (HandleCreateUser bf env db (some req)).hashCalls = [req.Password] ∧
    ((bytes req.Password).length ≠ 60 → goString hash ≠ req.Password) := by
  have hm : ¬ req.missing := by
    unfold CreateUserRequest.missing
    rintro (h | h | h | h)
    · exact hne.1 h
    · exact hne.2.1 h
    · exact hne.2.2.1 h
    · exact hne.2.2.2 h
  rw [HandleCreateUser_created bf env db req hash hm hg hc]
  exact ⟨rfl, rfl, rfl, generated_ne_plaintext bf req.Password env.rand hash hg⟩

/-- Witness of C5: the first registration on the empty store. -/
theorem create_inserts_and_echoes_witness :
    GenerateFromPassword sampleBlowfish (bytes sampleCreate.Password) DefaultCost sampleEnv.rand =
      .ok (bytes sampleUser.Password) ∧
    (HandleCreateUser sampleBlowfish sampleEnv Store.empty (some sampleCreate)).db.rows =
      [sampleUser] ∧
    (HandleCreateUser sampleBlowfish sampleEnv Store.empty (some sampleCreate)).resp =
      ⟨201, .user { sampleUser with Password := "" }⟩ :=
  have h := create_inserts_and_echoes sampleBlowfish sampleEnv Store.empty sampleCreate
    (bytes sampleUser.Password) (by decide) (by decide) (by decide)
  ⟨by decide, h.1.trans (by decide), h.2.1.trans (by decide)⟩

/-- C6: when the lookup by email returns the first stored user with that
email and the password verifies against its hash, `HandleLogin` answers 200
with `success: true` and a `user` map of exactly the five keys `id`, `email`,
`name`, `surname`, `fullName` holding that user's fields; the store is
unchanged. -/
theorem login_success_view (bf : Blowfish) (env : Env) (db : Store) (req : LoginRequest)
    (u : User) (hne : req.Email ≠ "" ∧ req.Password ≠ "") (hq : env.queryErr = none)
    (hu : db.byEmail req.Email = some u)
    (hok : CompareHashAndPassword bf (bytes u.Password) (bytes req.Password) = .ok ()) :
    (HandleLogin bf env db (some req)).resp =
      ⟨200, .map [("success", .atom (.bool true)),
                  ("user", .map [("id", .uint u.ID), ("email", .str u.Email),
                                 ("name", .str u.Name), ("surname", .str u.Surname),
                                 ("fullName", .str u.FullName)])]⟩ ∧
    (HandleLogin bf env db (some req)).db = db := by
  have h : HandleLogin bf env db (some req) =
      { resp := ⟨200, loginSuccess u⟩, db := db, hashCalls := [] } := by
    unfold HandleLogin Store.WhereEmailFirst
    simp only [hne.1, hne.2, or_self, if_false, hq, hu, hok]
    rfl
  rw [h]
  exact ⟨rfl, rfl⟩

/-- Witness of C6: the registered user logs in with the registered
password. -/
theorem login_success_view_witness :
    sampleStore.byEmail "a@x.com" = some sampleUser ∧
    CompareHashAndPassword sampleBlowfish (bytes sampleUser.Password) (bytes "pw") = .ok () ∧
    (HandleLogin sampleBlowfish sampleEnv sampleStore (some ⟨"a@x.com", "pw"⟩)).resp =
      ⟨200, .map [("success", .atom (.bool true)),
                  ("user", .map [("id", .uint 1), ("email", .str "a@x.com"),
                                 ("name", .str "A"), ("surname", .str "B"),
                                 ("fullName", .str "A B")])]⟩ :=
  ⟨by decide, by decide,
   (login_success_view sampleBlowfish sampleEnv sampleStore ⟨"a@x.com", "pw"⟩ sampleUser
      (by decide) (by decide) (by decide) (by decide)).1⟩

/-- C7 (failing input): on the store holding the single user 1, the request
`GET /users/1=1` is answered 200 with user 1, although no record has the id
`1=1`: the path parameter is not a number for `strconv.Atoi`, so gorm sends
it to SQLite as the condition `1=1`, which holds on every row. -/
theorem get_user_tautology :
    (∀ u ∈ sampleStore.rows, toString u.ID ≠ "1=1") ∧
    Atoi (bytes "1=1") = none ∧
    (HandleGetUser sampleSqlite sampleEnv sampleStore "1=1").resp =
      ⟨200, .user { sampleUser with Password := "" }⟩ := by
  decide

/-- C8 (counterexample): on the empty store a first run without failure
leaves the two demo accounts; a second run whose lookups fail with a driver
error, while its inserts work, takes each account for absent (`seedUsers`
skips only when `result.Error == nil`) and inserts it again: four rows, two
for each demo email, and a store that differs from the one the first run
left. -/
theorem seed_second_run_duplicates :
    seedEnvOk sampleBlowfish sampleEnv ∧
    (seedUsers sampleBlowfish (fun _ => sampleEnv) Store.empty).rows.length = 2 ∧
    (seedUsers sampleBlowfish (fun _ => sampleEnv) Store.empty).WhereEmailFirst busyReadEnv
      "vincent.causse@xanadu.com" = .error (.driver "database is locked") ∧
    (seedUsers sampleBlowfish (fun _ => busyReadEnv)
      (seedUsers sampleBlowfish (fun _ => sampleEnv) Store.empty)).rows.length = 4 ∧
    ((seedUsers sampleBlowfish (fun _ => busyReadEnv)
      (seedUsers sampleBlowfish (fun _ => sampleEnv) Store.empty)).accounts
        "vincent.causse@xanadu.com").length = 2 ∧
    ((seedUsers sampleBlowfish (fun _ => busyReadEnv)
      (seedUsers sampleBlowfish (fun _ => sampleEnv) Store.empty)).accounts
        "youcef.afane@xanadu.com").length = 2 ∧
    seedUsers sampleBlowfish (fun _ => busyReadEnv)
      (seedUsers sampleBlowfish (fun _ => sampleEnv) Store.empty) ≠
      seedUsers sampleBlowfish (fun _ => sampleEnv) Store.empty := by
  decide

/-- C8 (amended): seeding is idempotent when the lookups of the second run
are answered.  If no step of a first run fails, a second run whose lookups
are answered leaves the store exactly as the first run left it; started from
a store holding neither demo email, the two runs leave one account for each
demo email and two more rows, not four.  Whatever fails, a run only appends
to the rows present before, and adds no account for a demo email whose
lookup finds one. -/
theorem seed_idempotent (bf : Blowfish) (envs1 envs2 : Nat → Env) (db : Store)
    (h1 : seedEnvOk bf (envs1 0) ∧ seedEnvOk bf (envs1 1))
    (h2 : (envs2 0).queryErr = none ∧ (envs2 1).queryErr = none) :
    seedUsers bf envs2 (seedUsers bf envs1 db) = seedUsers bf envs1 db ∧
    ((∀ u ∈ db.rows, u.Email ≠ "vincent.causse@xanadu.com" ∧
        u.Email ≠ "youcef.afane@xanadu.com") →
      ((seedUsers bf envs2 (seedUsers bf envs1 db)).accounts
        "vincent.causse@xanadu.com").length = 1 ∧
      ((seedUsers bf envs2 (seedUsers bf envs1 db)).accounts
        "youcef.afane@xanadu.com").length = 1 ∧
      (seedUsers bf envs2 (seedUsers bf envs1 db)).rows.length = db.rows.length + 2) ∧
    (∀ envs : Nat → Env,
      (∃ added, (seedUsers bf envs db).rows = db.rows ++ added) ∧
      ((envs 0).queryErr = none → (db.byEmail "vincent.causse@xanadu.com").isSome →
        (seedUsers bf envs db).accounts "vincent.causse@xanadu.com" =
          db.accounts "vincent.causse@xanadu.com") ∧
      ((envs 1).queryErr = none → (db.byEmail "youcef.afane@xanadu.com").isSome →
        (seedUsers bf envs db).accounts "youcef.afane@xanadu.com" =
          db.accounts "youcef.afane@xanadu.com")) := by
  obtain ⟨⟨hq0, hc0, ho0⟩, ⟨hq1, hc1, ho1⟩⟩ := h1
  obtain ⟨hash0, hg0⟩ := exists_of_isOk _ ho0
  obtain ⟨hash1, hg1⟩ := exists_of_isOk _ ho1
  have idem : seedUsers bf envs2 (seedUsers bf envs1 db) = seedUsers bf envs1 db := by
    rw [seedUsers_eq bf envs1 db]
    generalize hd1 : seedStep bf (envs1 0) db
      ⟨"Vincent", "CAUSSE", "vincent.causse@xanadu.com", "Xanadu2025!"⟩ = db1
    obtain ⟨x0, hx0⟩ := seedStep_ok_found bf (envs1 0) db
      ⟨"Vincent", "CAUSSE", "vincent.causse@xanadu.com", "Xanadu2025!"⟩ hash0 hq0 hc0 hg0
    rw [hd1] at hx0
    have hx0' := seedStep_keeps_found bf (envs1 1) db1
      ⟨"Youcef", "AFANE", "youcef.afane@xanadu.com", "Xanadu2025!"⟩ _ x0 hx0
    obtain ⟨x1, hx1⟩ := seedStep_ok_found bf (envs1 1) db1
      ⟨"Youcef", "AFANE", "youcef.afane@xanadu.com", "Xanadu2025!"⟩ hash1 hq1 hc1 hg1
    generalize seedStep bf (envs1 1) db1
      ⟨"Youcef", "AFANE", "youcef.afane@xanadu.com", "Xanadu2025!"⟩ = db2 at hx0' hx1 ⊢
    rw [seedUsers_eq bf envs2 db2, seedStep_found bf (envs2 0) db2 _ x0 h2.1 hx0',
      seedStep_found bf (envs2 1) db2 _ x1 h2.2 hx1]
  refine ⟨idem, ?_, ?_⟩
  · intro hno
    rw [idem, seedUsers_eq bf envs1 db]
    have n0 : db.byEmail "vincent.causse@xanadu.com" = none :=
      byEmail_eq_none_of_absent db _ (fun x hx => (hno x hx).1)
    have n1 : db.byEmail "youcef.afane@xanadu.com" = none :=
      byEmail_eq_none_of_absent db _ (fun x hx => (hno x hx).2)
    rw [seedStep_created bf (envs1 0) db _ hash0 hq0 hc0 hg0 n0]
    have n1' := byEmail_append_of_none db
      (seedRow (envs1 0) db ⟨"Vincent", "CAUSSE", "vincent.causse@xanadu.com", "Xanadu2025!"⟩
        hash0) (db.seq + 1) "youcef.afane@xanadu.com" rfl n1
    rw [if_neg (by show ¬ "vincent.causse@xanadu.com" = "youcef.afane@xanadu.com"; decide)] at n1'
    rw [seedStep_created bf (envs1 1) _ _ hash1 hq1 hc1 hg1 n1']
    have f0 : db.rows.filter (fun u => u.Email = "vincent.causse@xanadu.com") = [] := by
      rw [List.filter_eq_nil_iff]
      intro x hx
      simpa using (hno x hx).1
    have f1 : db.rows.filter (fun u => u.Email = "youcef.afane@xanadu.com") = [] := by
      rw [List.filter_eq_nil_iff]
      intro x hx
      simpa using (hno x hx).2
    refine ⟨?_, ?_, ?_⟩
    · simp [Store.accounts, List.filter_append, f0, seedRow]
    · simp [Store.accounts, List.filter_append, f1, seedRow]
    · simp [List.length_append]
  · intro envs
    rw [seedUsers_eq bf envs db]
    obtain ⟨a0, ha0, he0⟩ := seedStep_rows bf (envs 0) db
      ⟨"Vincent", "CAUSSE", "vincent.causse@xanadu.com", "Xanadu2025!"⟩
    obtain ⟨a1, ha1, he1⟩ := seedStep_rows bf (envs 1)
      (seedStep bf (envs 0) db ⟨"Vincent", "CAUSSE", "vincent.causse@xanadu.com", "Xanadu2025!"⟩)
      ⟨"Youcef", "AFANE", "youcef.afane@xanadu.com", "Xanadu2025!"⟩
    refine ⟨⟨a0 ++ a1, by rw [ha1, ha0, List.append_assoc]⟩, ?_, ?_⟩
    · intro hq hp
      obtain ⟨x, hx⟩ := Option.isSome_iff_exists.mp hp
      have hs := seedStep_found bf (envs 0) db
        ⟨"Vincent", "CAUSSE", "vincent.causse@xanadu.com", "Xanadu2025!"⟩ x hq hx
      rw [hs] at ha1 ⊢
      unfold Store.accounts
      rw [ha1, List.filter_append]
      have : a1.filter (fun u => u.Email = "vincent.causse@xanadu.com") = [] := by
        rw [List.filter_eq_nil_iff]
        intro y hy
        have := he1 y hy
        simp only [this]
        decide
      rw [this, List.append_nil]
    · intro hq hp
      obtain ⟨x, hx⟩ := Option.isSome_iff_exists.mp hp
      have hk := seedStep_keeps_found bf (envs 0) db
        ⟨"Vincent", "CAUSSE", "vincent.causse@xanadu.com", "Xanadu2025!"⟩ _ x hx
      have hs := seedStep_found bf (envs 1) _
        ⟨"Youcef", "AFANE", "youcef.afane@xanadu.com", "Xanadu2025!"⟩ x hq hk
      rw [hs]
      unfold Store.accounts
      rw [ha0, List.filter_append]
      have : a0.filter (fun u => u.Email = "youcef.afane@xanadu.com") = [] := by
        rw [List.filter_eq_nil_iff]
        intro y hy
        have := he0 y hy
        simp only [this]
        decide
      rw [this, List.append_nil]

/-- Witness of C8 (amended): two runs on the empty store, without failure. -/
theorem seed_idempotent_witness :
    seedEnvOk sampleBlowfish sampleEnv ∧
    seedUsers sampleBlowfish (fun _ => sampleEnv)
      (seedUsers sampleBlowfish (fun _ => sampleEnv) Store.empty) =
      seedUsers sampleBlowfish (fun _ => sampleEnv) Store.empty ∧
    (seedUsers sampleBlowfish (fun _ => sampleEnv)
      (seedUsers sampleBlowfish (fun _ => sampleEnv) Store.empty)).rows.length = 2 :=
  have hok : seedEnvOk sampleBlowfish sampleEnv := by decide
  have h := seed_idempotent sampleBlowfish (fun _ => sampleEnv) (fun _ => sampleEnv)
    Store.empty ⟨hok, hok⟩ ⟨rfl, rfl⟩
  ⟨hok, h.1, (h.2.1 (by decide)).2.2⟩

/-- C9 (counterexample): with the database locked, the lookup of
`HandleGetUser` and of `HandleLogin` and the insert of `HandleCreateUser`
return a driver error that is neither record-not-found nor a duplicate, and
the answers are 404, 401 and 409, not 500; a bcrypt comparison error in
`HandleLogin` is answered 401. -/
theorem store_failure_not_500 :
    (sampleStore.First sampleSqlite lockedEnv "1" = .error (.driver "database is locked") ∧
      (HandleGetUser sampleSqlite lockedEnv sampleStore "1").resp.status = 404) ∧
    (sampleStore.WhereEmailFirst lockedEnv "a@x.com" = .error (.driver "database is locked") ∧
      (HandleLogin sampleBlowfish lockedEnv sampleStore (some ⟨"a@x.com", "pw"⟩)).resp.status
        = 401) ∧
    ((sampleStore.Create lockedEnv {}).1 = .error (.driver "database is locked") ∧
      (HandleCreateUser sampleBlowfish lockedEnv sampleStore (some sampleCreate)).resp.status
        = 409) ∧
    (CompareHashAndPassword sampleBlowfish (bytes sampleUser.Password) (bytes "pW") =
        .error .ErrMismatchedHashAndPassword ∧
      (HandleLogin sampleBlowfish sampleEnv sampleStore (some ⟨"a@x.com", "pW"⟩)).resp.status
        = 401) := by
  decide

/-- C9 (amended): for a registration with four non-empty fields and a login
with two non-empty fields, a hashing failure in `HandleCreateUser` is
answered 500 `hash_error` and a failure of `Find` in `HandleGetUsers` 500
`db_error`; every failure of the insert in `HandleCreateUser` is answered
409 `email_exists`, every failure of the lookup in `HandleGetUser` 404
`not_found`, and every failure of the lookup or of the bcrypt comparison in
`HandleLogin` 401 `invalid_credentials`. -/
theorem failure_statuses (bf : Blowfish) (sqlite : RawQuery) (env : Env) (db : Store)
    (creq : CreateUserRequest) (lreq : LoginRequest) (id : String)
    (hc : creq.Email ≠ "" ∧ creq.Password ≠ "" ∧ creq.FirstName ≠ "" ∧ creq.LastName ≠ "")
    (hl : lreq.Email ≠ "" ∧ lreq.Password ≠ "") :
    (∀ e, GenerateFromPassword bf (bytes creq.Password) DefaultCost env.rand = .error e →
      (HandleCreateUser bf env db (some creq)).resp =
        ⟨500, .map [("error", .atom (.str "hash_error"))]⟩) ∧
    (∀ e, db.Find env = .error e →
      (HandleGetUsers env db).resp = ⟨500, .map [("error", .atom (.str "db_error"))]⟩) ∧
    (∀ hash e, GenerateFromPassword bf (bytes creq.Password) DefaultCost env.rand = .ok hash →
      env.createErr = some e →
      (HandleCreateUser bf env db (some creq)).resp =
        ⟨409, .map [("error", .atom (.str "email_exists"))]⟩) ∧
    (∀ e, db.First sqlite env id = .error e →
      (HandleGetUser sqlite env db id).resp =
        ⟨404, .map [("error", .atom (.str "not_found"))]⟩) ∧
    (∀ e, db.WhereEmailFirst env lreq.Email = .error e →
      (HandleLogin bf env db (some lreq)).resp =
        ⟨401, .map [("success", .atom (.bool false)),
                    ("error", .atom (.str "invalid_credentials"))]⟩) ∧
    (∀ u e, db.WhereEmailFirst env lreq.Email = .ok u →
      CompareHashAndPassword bf (bytes u.Password) (bytes lreq.Password) = .error e →
      (HandleLogin bf env db (some lreq)).resp =
        ⟨401, .map [("success", .atom (.bool false)),
                    ("error", .atom (.str "invalid_credentials"))]⟩) := by
  have hm : ¬ creq.missing := by
    unfold CreateUserRequest.missing
    rintro (h | h | h | h)
    · exact hc.1 h
    · exact hc.2.1 h
    · exact hc.2.2.1 h
    · exact hc.2.2.2 h
  refine ⟨?_, ?_, ?_, ?_, ?_, ?_⟩
  · intro e hg
    rw [HandleCreateUser_hashError bf env db creq e hm hg]
    rfl
  · intro e hf
    unfold HandleGetUsers
    rw [hf]
    rfl
  · intro hash e hg hce
    rw [HandleCreateUser_createError bf env db creq hash e hm hg hce]
    rfl
  · intro e hf
    unfold HandleGetUser
    rw [hf]
    rfl
  · intro e hf
    unfold HandleLogin
    simp only [hl.1, hl.2, or_self, if_false, hf]
    rfl
  · intro u e hf hcmp
    unfold HandleLogin
    simp only [hl.1, hl.2, or_self, if_false, hf, hcmp]
    rfl

/-- Witness of C9 (amended): no entropy gives 500 on registration; a locked
database gives 500 on the listing, 404 on the lookup by key and 401 on
login. -/
theorem failure_statuses_witness :
    (HandleCreateUser sampleBlowfish noEntropyEnv sampleStore (some sampleCreate)).resp.status
      = 500 ∧
    (HandleGetUsers lockedEnv sampleStore).resp.status = 500 ∧
    (HandleGetUser sampleSqlite lockedEnv sampleStore "1").resp.status = 404 ∧
    (HandleLogin sampleBlowfish lockedEnv sampleStore (some ⟨"a@x.com", "pw"⟩)).resp.status
      = 401 :=
  have h1 := failure_statuses sampleBlowfish sampleSqlite noEntropyEnv sampleStore sampleCreate
    ⟨"a@x.com", "pw"⟩ "1" (by decide) (by decide)
  have h2 := failure_statuses sampleBlowfish sampleSqlite lockedEnv sampleStore sampleCreate
    ⟨"a@x.com", "pw"⟩ "1" (by decide) (by decide)
  ⟨congrArg Response.status (h1.1 .randRead (by decide)),
   congrArg Response.status (h2.2.1 (.driver "database is locked") (by decide)),
   congrArg Response.status (h2.2.2.2.1 (.driver "database is locked") (by decide)),
   congrArg Response.status (h2.2.2.2.2.1 (.driver "database is locked") (by decide))⟩

/-- C10 (counterexample): the password `a` followed by NUL and `a` differs
from `a`, and `longPassword` followed by `y` differs from `longPassword`,
yet in both pairs the two passwords give the same 72 key bytes, so for every
Blowfish key schedule and every salt the hash generated from the first is
verified by the second; with the sample key schedule, the user registered
with `a` logs in (status 200) with the other password. -/
theorem verify_accepts_other_password :
    ("a\x00a" ≠ "a" ∧ longPassword ++ "y" ≠ longPassword) ∧
    (∀ (bf : Blowfish) (salt : Salt) (h : List Nat),
      GenerateFromPassword bf (bytes "a") DefaultCost (some salt) = .ok h →
      CompareHashAndPassword bf (bytes (goString h)) (bytes "a\x00a") = .ok ()) ∧
    (∀ (bf : Blowfish) (salt : Salt) (h : List Nat),
      GenerateFromPassword bf (bytes longPassword) DefaultCost (some salt) = .ok h →
      CompareHashAndPassword bf (bytes (goString h)) (bytes (longPassword ++ "y")) = .ok ()) ∧
    (HandleCreateUser sampleBlowfish sampleEnv Store.empty
      (some ⟨"a@x.com", "a", "A", "B"⟩)).resp.status = 201 ∧
    (HandleLogin sampleBlowfish sampleEnv
      (HandleCreateUser sampleBlowfish sampleEnv Store.empty
        (some ⟨"a@x.com", "a", "A", "B"⟩)).db
      (some ⟨"a@x.com", "a\x00a"⟩)).resp.status = 200 := by
  refine ⟨⟨by decide, by decide⟩, ?_, ?_, by decide, by decide⟩
  · intro bf salt h hg
    exact compare_of_keyStream_eq bf _ _ salt h hg (by decide)
  · intro bf salt h hg
    exact compare_of_keyStream_eq bf _ _ salt h hg (by decide)

/-- C10 (amended): for a user stored with a hash generated from `p`, the
comparison with the login password succeeds exactly when the bcrypt digests
of the two passwords under the salt of the hash agree on their 31
characters, which happens whenever the two passwords give the same 72 key
bytes; and whenever the comparison returns an error, `HandleLogin` answers
401 `invalid_credentials`. -/
theorem verify_after_register (bf : Blowfish) (env : Env) (db : Store) (req : LoginRequest)
    (u : User) (p : String) (salt : Salt) (h : List Nat)
    (hne : req.Email ≠ "" ∧ req.Password ≠ "")
    (hg : GenerateFromPassword bf (bytes p) DefaultCost (some salt) = .ok h)
    (hu : db.byEmail req.Email = some u) (hp : u.Password = goString h) :
    (CompareHashAndPassword bf (bytes u.Password) (bytes req.Password) = .ok () ↔
      ∃ dp dw, bcrypt bf (bytes p) DefaultCost (salt.val.map enc64) = .ok dp ∧
        bcrypt bf (bytes req.Password) DefaultCost (salt.val.map enc64) = .ok dw ∧
        fit 31 dw = fit 31 dp) ∧
    (keyStream (bytes req.Password ++ [0]) = keyStream (bytes p ++ [0]) →
      CompareHashAndPassword bf (bytes u.Password) (bytes req.Password) = .ok ()) ∧
    (∀ e, CompareHashAndPassword bf (bytes u.Password) (bytes req.Password) = .error e →
      (HandleLogin bf env db (some req)).resp =
        ⟨401, .map [("success", .atom (.bool false)),
                    ("error", .atom (.str "invalid_credentials"))]⟩) := by
  refine ⟨?_, ?_, ?_⟩
  · obtain ⟨dp, hb, rfl⟩ := generate_ok bf (bytes p) salt h hg
    rw [hp, compare_hashText]
    unfold bcrypt
    simp only [DefaultCost, hb]
    constructor
    · rintro ⟨dw, hw, hf⟩
      exact ⟨dp.map enc64, dw.map enc64, rfl, by rw [hw], hf⟩
    · rintro ⟨dp1, dw1, h1, h2, hf⟩
      cases h1
      cases hw : bf (keyStream (bytes req.Password ++ [0])) 10 (salt.val.map enc64) with
      | error e => rw [hw] at h2; cases h2
      | ok dw =>
        rw [hw] at h2
        cases h2
        exact ⟨dw, rfl, hf⟩
  · intro hk
    rw [hp]
    exact compare_of_keyStream_eq bf _ _ salt h hg hk
  · intro e he
    unfold HandleLogin Store.WhereEmailFirst
    simp only [hne.1, hne.2, or_self, if_false, hu]
    cases env.queryErr
    · simp only [he]; rfl
    · rfl

/-- Witness of C10 (amended): the user registered with `pw` is refused with
`pW`. -/
theorem verify_after_register_witness :
    GenerateFromPassword sampleBlowfish (bytes "pw") DefaultCost (some sampleSalt) =
      .ok (bytes sampleUser.Password) ∧
    sampleStore.byEmail "a@x.com" = some sampleUser ∧
    sampleUser.Password = goString (bytes sampleUser.Password) ∧
    CompareHashAndPassword sampleBlowfish (bytes sampleUser.Password) (bytes "pW") =
      .error .ErrMismatchedHashAndPassword ∧
    (HandleLogin sampleBlowfish sampleEnv sampleStore (some ⟨"a@x.com", "pW"⟩)).resp =
      ⟨401, .map [("success", .atom (.bool false)),
                  ("error", .atom (.str "invalid_credentials"))]⟩ :=
  ⟨by decide, by decide, by decide, by decide,
   (verify_after_register sampleBlowfish sampleEnv sampleStore ⟨"a@x.com", "pW"⟩ sampleUser
      "pw" sampleSalt (bytes sampleUser.Password) (by decide) (by decide) (by decide)
      (by decide)).2.2 .ErrMismatchedHashAndPassword (by decide)⟩

end Xanadu
